import Mathlib

/-!
Shallow embedding of the Spine Asset Optimizer core
(`src/utils/optimizer.ts`): the sizing-decision algorithm
(`calculateOptimizationTargets`), the resample pipeline of `resizeImage`
(pyramid pre-filter, Lanczos weight renormalization, premultiplied-alpha
safe quantization), and the packaging loop of `generateOptimizedZip`.

JavaScript numbers are modelled as exact rationals (`ℚ`); the claims under
study are order/clamping/termination facts that are stated by the spec in
exact arithmetic.  Pixel buffers are modelled as functions from flat
indices to rational samples.  The blob/file payloads are an abstract type
parameter `β`.
-/

namespace SpineOpt

/-- Modelled from the spec (data model, section 3) and the field usage in
`optimizer.ts`: the per-asset usage statistic.  The interface itself lives
in `../types`, which is not part of the sources. -/
structure GlobalAssetStat where
  lookupKey : String
  maxRenderWidth : ℚ
  maxRenderHeight : ℚ
  maxScaleX : ℚ
  maxScaleY : ℚ
  isOverridden : Bool
  overridePercentage : Option ℚ
deriving DecidableEq

/-- A physically loaded source image, as consumed by
`calculateOptimizationTargets`: canonical width/height, optional true
physical source dimensions, the raw file payload and the original path. -/
structure LoadedImage (β : Type) where
  width : ℚ
  height : ℚ
  sourceWidth : Option ℚ
  sourceHeight : Option ℚ
  file : β
  originalPath : String
deriving DecidableEq

/-- Modelled from the spec (data model, section 3) and the record pushed in
`calculateOptimizationTargets`: the per-asset output task.  The interface
itself lives in `../types`, which is not part of the sources. -/
structure OptimizationTask (β : Type) where
  fileName : String
  relativePath : String
  originalWidth : ℚ
  originalHeight : ℚ
  targetWidth : ℚ
  targetHeight : ℚ
  blob : β
  maxScaleUsed : ℚ
  isResize : Bool
  overridePercentage : Option ℚ
deriving DecidableEq

/-- The lookup `statsMap.get key` after
`stats.forEach(s => statsMap.set(s.lookupKey, s))`: a later `set` with the same key overwrites an earlier one, so the lookup
returns the last stat in list order carrying the key. -/
def statsLookup (stats : List GlobalAssetStat) (key : String) : Option GlobalAssetStat :=
  stats.reverse.find? (fun s => s.lookupKey = key)

/-- JavaScript `String.prototype.lastIndexOf` for a single character:
the largest index holding `c`, or `-1` when absent. -/
def lastIndexOfChar (l : List Char) (c : Char) : Int :=
  l.enum.foldl (fun acc p => if p.2 = c then (p.1 : Int) else acc) (-1)

/-- The output-file-name computation of `calculateOptimizationTargets`:
strip the extension only when the last dot falls after the last path
separator, then append the mandatory `.png` extension. -/
def outputFileName (sourcePath : String) : String :=
  let chars := sourcePath.data
  let lastSlashIndex := max (lastIndexOfChar chars '/') (lastIndexOfChar chars '\\')
  let lastDotIndex := lastIndexOfChar chars '.'
  let basePath := if lastSlashIndex < lastDotIndex then String.mk (chars.take lastDotIndex.toNat) else sourcePath
  basePath ++ ".png"

/-- The fallback `original.sourceWidth ?? original.width`: the physical cap on the x axis. -/
def physW {β : Type} (img : LoadedImage β) : ℚ := img.sourceWidth.getD img.width

/-- The fallback `original.sourceHeight ?? original.height`: the physical cap on the y axis. -/
def physH {β : Type} (img : LoadedImage β) : ℚ := img.sourceHeight.getD img.height

/-- The requested width: the override dimensions taken directly when the
stat is overridden, else `Math.ceil(stat.maxRenderWidth * bufferMultiplier)`
with `bufferMultiplier = 1 + bufferPercentage / 100`. -/
def calculatedW (stat : GlobalAssetStat) (bufferPercentage : ℚ) : ℚ :=
  if stat.isOverridden then stat.maxRenderWidth
  else ((⌈stat.maxRenderWidth * (1 + bufferPercentage / 100)⌉ : ℤ) : ℚ)

/-- The requested height, as `calculatedW` for the y axis. -/
def calculatedH (stat : GlobalAssetStat) (bufferPercentage : ℚ) : ℚ :=
  if stat.isOverridden then stat.maxRenderHeight
  else ((⌈stat.maxRenderHeight * (1 + bufferPercentage / 100)⌉ : ℤ) : ℚ)

/-- The task pushed for one loaded image with its matching stat: the final
target is the requested size capped at the physical cap and clamped up to
1, `isResize` compares the target against the physical dimensions. -/
def mkTask {β : Type} (stat : GlobalAssetStat) (bufferPercentage : ℚ)
    (original : LoadedImage β) : OptimizationTask β :=
  let physicalW := physW original
  let physicalH := physH original
  let targetW := max 1 (min (calculatedW stat bufferPercentage) physicalW)
  let targetH := max 1 (min (calculatedH stat bufferPercentage) physicalH)
  { fileName := outputFileName original.originalPath
    relativePath := original.originalPath
    originalWidth := physicalW
    originalHeight := physicalH
    targetWidth := targetW
    targetHeight := targetH
    blob := original.file
    maxScaleUsed := max stat.maxScaleX stat.maxScaleY
    isResize := decide (targetW ≠ physicalW) || decide (targetH ≠ physicalH)
    overridePercentage := stat.overridePercentage }

/-- The body of the `loadedImages.forEach` loop in
`calculateOptimizationTargets`: `none` when the key has no usage stat
(the unused-image exclusion), otherwise the emitted task. -/
def taskFor {β : Type} (stats : List GlobalAssetStat) (bufferPercentage : ℚ)
    (entry : String × LoadedImage β) : Option (OptimizationTask β) :=
  match statsLookup stats entry.1 with
  | none => none
  | some stat => some (mkTask stat bufferPercentage entry.2)

/-- The comparator `(a, b) => (a.isResize === b.isResize ? 0 : a.isResize ? -1 : 1)`
as a boolean `a comes no later than b` relation: `a` may precede `b`
unless `a` is a non-resize task and `b` is a resize task. -/
def taskLE {β : Type} (a b : OptimizationTask β) : Bool :=
  a.isResize || !b.isResize

/-- The exported `calculateOptimizationTargets`: one task per loaded image that has a
usage stat, stably sorted so that resize tasks come first. -/
def calculateOptimizationTargets {β : Type} (stats : List GlobalAssetStat)
    (loadedImages : List (String × LoadedImage β)) (bufferPercentage : ℚ) :
    List (OptimizationTask β) :=
  (loadedImages.filterMap (taskFor stats bufferPercentage)).mergeSort taskLE

/-! ## Resample pipeline: pyramid pre-filter -/

/-- One pyramid halving step (`resizeImage`, stage B): the destination
buffer of width `nextW` whose flat entry `(y * nextW + x) * 4 + c` is the
average of channel `c` over the non-overlapping 2×2 source block at
`(2x, 2y)` of a source buffer of width `srcW`. -/
def boxHalve (src : Nat → ℚ) (srcW nextW : Nat) (idx : Nat) : ℚ :=
  let y := idx / (nextW * 4)
  let rem := idx % (nextW * 4)
  let x := rem / 4
  let c := rem % 4
  (src ((y * 2) * srcW * 4 + x * 2 * 4 + c) +
   src ((y * 2) * srcW * 4 + (x * 2 + 1) * 4 + c) +
   src ((y * 2 + 1) * srcW * 4 + x * 2 * 4 + c) +
   src ((y * 2 + 1) * srcW * 4 + (x * 2 + 1) * 4 + c)) * (1 / 4)

/-- The pyramid loop of `resizeImage`: while both current dimensions exceed
twice the corresponding target dimension, replace the buffer by its 2×2 box
average and halve both dimensions (floor division). Returns the final
`(currentWidth, currentHeight, buffer)`. -/
def pyramidLoop (targetWidth targetHeight : Nat) (srcW srcH : Nat) (buf : Nat → ℚ) :
    Nat × Nat × (Nat → ℚ) :=
  if h : targetWidth * 2 < srcW ∧ targetHeight * 2 < srcH then
    pyramidLoop targetWidth targetHeight (srcW / 2) (srcH / 2) (boxHalve buf srcW (srcW / 2))
  else
    (srcW, srcH, buf)
termination_by srcW
decreasing_by exact Nat.div_lt_self (by omega) (by omega)

/-! ## Resample pipeline: Lanczos weight computation

The kernel itself evaluates `sin(pi*x)/(pi*x) * sin(pi*x/3)/(pi*x/3)`, a
transcendental function; it enters the weight computation only as a black
box, so it is a parameter here and the renormalization facts below hold
for every kernel. -/

/-- The six raw tap weights at a continuous source `center`
(`resizeImage`, both Lanczos passes): weight `k` is the kernel evaluated
at `center - neighbor` with `neighbor = floor(center) - 2 + k`. -/
def computeRawWeights (kernel : ℚ → ℚ) (center : ℚ) (k : Fin 6) : ℚ :=
  kernel (center - ((⌊center⌋ : ℚ) - 2 + (k : ℕ)))

/-- The accumulated `weightSum` over the six taps. -/
def rawWeightSum (kernel : ℚ → ℚ) (center : ℚ) : ℚ :=
  ∑ k : Fin 6, computeRawWeights kernel center k

/-- The weights after the guarded renormalization
`if (weightSum !== 0) weights[k] /= weightSum`: divided by the raw sum when
it is nonzero, left untouched (division skipped) when it is zero. -/
def renormWeights (kernel : ℚ → ℚ) (center : ℚ) (k : Fin 6) : ℚ :=
  if rawWeightSum kernel center ≠ 0 then
    computeRawWeights kernel center k / rawWeightSum kernel center
  else
    computeRawWeights kernel center k

/-! ## Resample pipeline: quantization with TPDF dither -/

/-- The per-pixel dither `Math.random() + Math.random() - 1.0`, as a
function of the two uniform draws. -/
def ditherOf (u v : ℚ) : ℚ := u + v - 1

/-- Round half to even: the rounding a `Uint8ClampedArray` store applies
before clamping, per the ECMAScript conversion `ToUint8Clamp`. -/
def roundHalfToEven (q : ℚ) : ℤ :=
  if q - (⌊q⌋ : ℚ) < 1 / 2 then ⌊q⌋
  else if 1 / 2 < q - (⌊q⌋ : ℚ) then ⌊q⌋ + 1
  else if ⌊q⌋ % 2 = 0 then ⌊q⌋ else ⌊q⌋ + 1

/-- A `Uint8ClampedArray` store: clamp to `[0, 255]` with
round-half-to-even. -/
def clampU8 (q : ℚ) : ℤ :=
  max 0 (min 255 (roundHalfToEven q))

/-- The four 8-bit channel values stored for one output pixel. -/
structure QuantizedPixel where
  red : ℤ
  green : ℤ
  blue : ℤ
  alpha : ℤ
deriving DecidableEq

/-- The quantize step of `resizeImage` (stage D) for one output pixel with
filtered channels `r g b a` and uniform draws `u v`: one dither value `d`
for the pixel, each color channel clamped to the alpha channel before `d`
is added, then each sum stored through the `Uint8ClampedArray`. -/
def quantizePixel (r g b a u v : ℚ) : QuantizedPixel :=
  let d := ditherOf u v
  { red := clampU8 (min r a + d)
    green := clampU8 (min g a + d)
    blue := clampU8 (min b a + d)
    alpha := clampU8 (a + d) }

/-! ## resizeImage control flow and the packaging loop -/

/-- The control flow of `resizeImage`: a failed import
(`getRawBytesViaWebGL` returned null, hence `throw`, hence the `catch`
returns null) gives `none`; a pipeline step that throws is caught and
gives `none`; otherwise the encoder's result is returned as is, so a null
blob from encoding also surfaces as `none`.  The numeric pipeline and the
codec are the `pipeline` and `encode` parameters. -/
def resizeImageRun {ρ β : Type} (importResult : Option ρ)
    (pipeline : ρ → Except Unit ρ) (encode : ρ → Option β) : Option β :=
  match importResult with
  | none => none
  | some raw =>
    match pipeline raw with
    | Except.error _ => none
    | Except.ok processed => encode processed

/-- The archive path of a task's entry: every output lives under the fixed
root folder `images_optimized` under its prepared file name. -/
def zipEntryName {β : Type} (task : OptimizationTask β) : String :=
  "images_optimized/" ++ task.fileName

/-- The task loop of `generateOptimizedZip`, with the per-task resize
outcome abstracted as `resize`: a resize task stores the resized blob when
resizing succeeds and falls back to the original blob when it yields
`none`; a non-resize task stores the original blob directly. -/
def generateOptimizedZip {β : Type} (resize : OptimizationTask β → Option β) :
    List (OptimizationTask β) → List (String × β)
  | [] => []
  | task :: rest =>
    (if task.isResize then
      match resize task with
      | some resized => (zipEntryName task, resized)
      | none => (zipEntryName task, task.blob)
    else
      (zipEntryName task, task.blob)) :: generateOptimizedZip resize rest

/-! ## Basic lemmas about the sizing policy -/

theorem mkTask_targetWidth {β : Type} (stat : GlobalAssetStat) (bp : ℚ) (img : LoadedImage β) :
    (mkTask stat bp img).targetWidth = max 1 (min (calculatedW stat bp) (physW img)) := rfl

theorem mkTask_targetHeight {β : Type} (stat : GlobalAssetStat) (bp : ℚ) (img : LoadedImage β) :
    (mkTask stat bp img).targetHeight = max 1 (min (calculatedH stat bp) (physH img)) := rfl

theorem mkTask_originalWidth {β : Type} (stat : GlobalAssetStat) (bp : ℚ) (img : LoadedImage β) :
    (mkTask stat bp img).originalWidth = physW img := rfl

theorem mkTask_originalHeight {β : Type} (stat : GlobalAssetStat) (bp : ℚ) (img : LoadedImage β) :
    (mkTask stat bp img).originalHeight = physH img := rfl

theorem taskFor_eq_some {β : Type} {stats : List GlobalAssetStat} {bp : ℚ}
    {e : String × LoadedImage β} {task : OptimizationTask β} :
    taskFor stats bp e = some task ↔
      ∃ stat, statsLookup stats e.1 = some stat ∧ task = mkTask stat bp e.2 := by
  unfold taskFor
  cases h : statsLookup stats e.1 <;> simp [h, eq_comm]

theorem mem_calculateOptimizationTargets {β : Type} {stats : List GlobalAssetStat}
    {imgs : List (String × LoadedImage β)} {bp : ℚ} {task : OptimizationTask β} :
    task ∈ calculateOptimizationTargets stats imgs bp ↔
      ∃ e ∈ imgs, taskFor stats bp e = some task := by
  unfold calculateOptimizationTargets
  rw [List.mem_mergeSort, List.mem_filterMap]

theorem length_filterMap_isSome {α γ : Type} (f : α → Option γ) (l : List α) :
    (l.filterMap f).length = (l.filter (fun a => (f a).isSome)).length := by
  induction l with
  | nil => rfl
  | cons a l ih => cases h : f a <;> simp [List.filterMap_cons, List.filter_cons, h, ih]

/-- Fixture: a loaded image with physical caps 100×80. -/
def imgA : LoadedImage Unit :=
  { width := 50, height := 60, sourceWidth := some 100, sourceHeight := some 80,
    file := (), originalPath := "a/b.png" }

/-- Fixture: a non-overridden stat under key "k". -/
def statA : GlobalAssetStat :=
  { lookupKey := "k", maxRenderWidth := 200, maxRenderHeight := 40,
    maxScaleX := 2, maxScaleY := 1, isOverridden := false, overridePercentage := none }

/-- C1: for every task emitted by `calculateOptimizationTargets`, if every
loaded image's physical cap is at least 1 then
`1 ≤ targetWidth ≤ originalWidth` and `1 ≤ targetHeight ≤ originalHeight`,
for all stats, overrides and buffer percentages. -/
theorem targets_within_physical_caps {β : Type} (stats : List GlobalAssetStat)
    (imgs : List (String × LoadedImage β)) (bp : ℚ)
    (hcap : ∀ e ∈ imgs, 1 ≤ physW e.2 ∧ 1 ≤ physH e.2) :
    ∀ task ∈ calculateOptimizationTargets stats imgs bp,
      1 ≤ task.targetWidth ∧ task.targetWidth ≤ task.originalWidth ∧
      1 ≤ task.targetHeight ∧ task.targetHeight ≤ task.originalHeight := by
  intro task htask
  rw [mem_calculateOptimizationTargets] at htask
  obtain ⟨e, he, hf⟩ := htask
  obtain ⟨hW, hH⟩ := hcap e he
  obtain ⟨stat, -, rfl⟩ := taskFor_eq_some.mp hf
  refine ⟨?_, ?_, ?_, ?_⟩
  · rw [mkTask_targetWidth]; exact le_max_left 1 _
  · rw [mkTask_targetWidth, mkTask_originalWidth]
    exact max_le hW (min_le_right _ _)
  · rw [mkTask_targetHeight]; exact le_max_left 1 _
  · rw [mkTask_targetHeight, mkTask_originalHeight]
    exact max_le hH (min_le_right _ _)

/-- Witness for C1 at a concrete input. -/
theorem targets_within_physical_caps_witness :
    (∀ e ∈ ([("k", imgA)] : List (String × LoadedImage Unit)),
      1 ≤ physW e.2 ∧ 1 ≤ physH e.2) ∧
    ∀ task ∈ calculateOptimizationTargets [statA] [("k", imgA)] 0,
      1 ≤ task.targetWidth ∧ task.targetWidth ≤ task.originalWidth ∧
      1 ≤ task.targetHeight ∧ task.targetHeight ≤ task.originalHeight :=
  ⟨by decide, targets_within_physical_caps [statA] [("k", imgA)] 0 (by decide)⟩

/-- C7: a loaded image whose key has no usage stat yields no task, and the
returned task list has exactly one task per loaded image whose key does
appear in the stats. -/
theorem unused_images_excluded {β : Type} (stats : List GlobalAssetStat)
    (imgs : List (String × LoadedImage β)) (bp : ℚ) :
    (∀ e ∈ imgs, statsLookup stats e.1 = none → taskFor stats bp e = none) ∧
    (calculateOptimizationTargets stats imgs bp).length =
      (imgs.filter (fun e => (statsLookup stats e.1).isSome)).length := by
  constructor
  · intro e _ hnone
    unfold taskFor
    rw [hnone]
  · unfold calculateOptimizationTargets
    rw [List.length_mergeSort, length_filterMap_isSome]
    congr 1
    apply List.filter_congr
    intro e _
    unfold taskFor
    cases h : statsLookup stats e.1 <;> simp [h]

/-- Witness for C7 at a concrete input (the second key has no stat). -/
theorem unused_images_excluded_witness :
    (∀ e ∈ ([("k", imgA), ("z", imgA)] : List (String × LoadedImage Unit)),
      statsLookup [statA] e.1 = none → taskFor [statA] (0 : ℚ) e = none) ∧
    (calculateOptimizationTargets [statA] [("k", imgA), ("z", imgA)] (0 : ℚ)).length =
      (([("k", imgA), ("z", imgA)] : List (String × LoadedImage Unit)).filter
        (fun e => (statsLookup [statA] e.1).isSome)).length :=
  unused_images_excluded [statA] [("k", imgA), ("z", imgA)] 0

/-- C2: in the non-override case the target is the buffered maximum render
size, rounded up, clamped between 1 and the physical cap; in particular
`sourceWidth = 100`, `maxRenderWidth = 200`, `bufferPercentage = 0` gives
`targetWidth = 100`. -/
theorem non_override_target_formula {β : Type} (stats : List GlobalAssetStat)
    (bp : ℚ) (key : String) (img : LoadedImage β) (stat : GlobalAssetStat)
    (hstat : statsLookup stats key = some stat) (hov : stat.isOverridden = false) :
    (∃ task, taskFor stats bp (key, img) = some task ∧
      task.targetWidth =
        max 1 (min ((⌈stat.maxRenderWidth * (1 + bp / 100)⌉ : ℤ) : ℚ) (physW img)) ∧
      task.targetHeight =
        max 1 (min ((⌈stat.maxRenderHeight * (1 + bp / 100)⌉ : ℤ) : ℚ) (physH img)) ∧
      ∀ imgs : List (String × LoadedImage β), (key, img) ∈ imgs →
        task ∈ calculateOptimizationTargets stats imgs bp) ∧
    (taskFor [statA] (0 : ℚ) ("k", imgA) = some (mkTask statA 0 imgA) ∧
      (mkTask statA 0 imgA).targetWidth = 100) := by
  constructor
  · refine ⟨mkTask stat bp img, ?_, ?_, ?_, ?_⟩
    · simp [taskFor, hstat]
    · rw [mkTask_targetWidth]
      simp [calculatedW, hov]
    · rw [mkTask_targetHeight]
      simp [calculatedH, hov]
    · intro imgs hmem
      rw [mem_calculateOptimizationTargets]
      exact ⟨(key, img), hmem, by simp [taskFor, hstat]⟩
  · refine ⟨rfl, ?_⟩
    rw [mkTask_targetWidth]
    norm_num [calculatedW, statA, physW, imgA, min_def, max_def]

/-- Witness for C2 at a concrete input. -/
theorem non_override_target_formula_witness :
    statsLookup [statA] "k" = some statA ∧ statA.isOverridden = false ∧
    ((∃ task, taskFor [statA] (0 : ℚ) ("k", imgA) = some task ∧
      task.targetWidth =
        max 1 (min ((⌈statA.maxRenderWidth * (1 + (0 : ℚ) / 100)⌉ : ℤ) : ℚ) (physW imgA)) ∧
      task.targetHeight =
        max 1 (min ((⌈statA.maxRenderHeight * (1 + (0 : ℚ) / 100)⌉ : ℤ) : ℚ) (physH imgA)) ∧
      ∀ imgs : List (String × LoadedImage Unit), ("k", imgA) ∈ imgs →
        task ∈ calculateOptimizationTargets [statA] imgs 0) ∧
    (taskFor [statA] (0 : ℚ) ("k", imgA) = some (mkTask statA 0 imgA) ∧
      (mkTask statA 0 imgA).targetWidth = 100)) :=
  ⟨by decide, rfl, non_override_target_formula [statA] 0 "k" imgA statA (by decide) rfl⟩

/-- Fixture: a loaded image (physical 100×100) that needs resizing. -/
def imgR : LoadedImage Unit :=
  { width := 100, height := 100, sourceWidth := none, sourceHeight := none,
    file := (), originalPath := "r.png" }

/-- Fixture: the stat for `imgR`, requesting 50×50. -/
def statR : GlobalAssetStat :=
  { lookupKey := "r", maxRenderWidth := 50, maxRenderHeight := 50,
    maxScaleX := 1/2, maxScaleY := 1/2, isOverridden := false, overridePercentage := none }

/-- Fixture: a loaded image (physical 100×100) that needs no resizing. -/
def imgN : LoadedImage Unit :=
  { width := 100, height := 100, sourceWidth := none, sourceHeight := none,
    file := (), originalPath := "n.png" }

/-- Fixture: the stat for `imgN`, requesting 200×200 (capped to 100×100). -/
def statN : GlobalAssetStat :=
  { lookupKey := "n", maxRenderWidth := 200, maxRenderHeight := 200,
    maxScaleX := 2, maxScaleY := 2, isOverridden := false, overridePercentage := none }

theorem mkTask_statR_isResize : (mkTask statR 0 imgR).isResize = true := by
  norm_num [mkTask, calculatedW, calculatedH, physW, physH, statR, imgR, min_def, max_def]

theorem mkTask_statN_isResize : (mkTask statN 0 imgN).isResize = false := by
  norm_num [mkTask, calculatedW, calculatedH, physW, physH, statN, imgN, min_def, max_def]

theorem calc_two_tasks_eval :
    calculateOptimizationTargets [statR, statN] [("r", imgR), ("n", imgN)] (0 : ℚ) =
      [mkTask statR 0 imgR, mkTask statN 0 imgN] := by
  unfold calculateOptimizationTargets
  have h1 : List.filterMap (taskFor [statR, statN] (0 : ℚ)) [("r", imgR), ("n", imgN)] =
      [mkTask statR 0 imgR, mkTask statN 0 imgN] := rfl
  rw [h1]
  apply List.mergeSort_of_sorted
  refine List.Pairwise.cons ?_ (List.Pairwise.cons ?_ List.Pairwise.nil)
  · intro b hb
    rw [List.mem_singleton] at hb
    subst hb
    simp [taskLE, mkTask_statR_isResize]
  · intro b hb
    exact absurd hb (List.not_mem_nil b)

/-- C8: in the returned task list, a non-resize task never precedes a
resize task. -/
theorem resize_tasks_precede {β : Type} (stats : List GlobalAssetStat)
    (imgs : List (String × LoadedImage β)) (bp : ℚ) (i j : Nat)
    (ti tj : OptimizationTask β) (hij : i < j)
    (hi : (calculateOptimizationTargets stats imgs bp)[i]? = some ti)
    (hj : (calculateOptimizationTargets stats imgs bp)[j]? = some tj) :
    ¬(ti.isResize = false ∧ tj.isResize = true) := by
  have htrans : ∀ a b c : OptimizationTask β, taskLE a b → taskLE b c → taskLE a c := by
    intro a b c
    unfold taskLE
    cases a.isResize <;> cases b.isResize <;> cases c.isResize <;> simp
  have htotal : ∀ a b : OptimizationTask β, taskLE a b || taskLE b a := by
    intro a b
    unfold taskLE
    cases a.isResize <;> cases b.isResize <;> simp
  have hpair : (calculateOptimizationTargets stats imgs bp).Pairwise (fun a b => taskLE a b) := by
    unfold calculateOptimizationTargets
    exact List.sorted_mergeSort htrans htotal _
  obtain ⟨hilen, hig⟩ := List.getElem?_eq_some_iff.mp hi
  obtain ⟨hjlen, hjg⟩ := List.getElem?_eq_some_iff.mp hj
  have hle := List.pairwise_iff_getElem.mp hpair i j hilen hjlen hij
  rw [hig, hjg] at hle
  unfold taskLE at hle
  rintro ⟨h1, h2⟩
  rw [h1, h2] at hle
  simp at hle

/-- Witness for C8 at a concrete two-task input. -/
theorem resize_tasks_precede_witness :
    (0 : Nat) < 1 ∧
    (calculateOptimizationTargets [statR, statN] [("r", imgR), ("n", imgN)] (0 : ℚ))[0]? =
      some (mkTask statR 0 imgR) ∧
    (calculateOptimizationTargets [statR, statN] [("r", imgR), ("n", imgN)] (0 : ℚ))[1]? =
      some (mkTask statN 0 imgN) ∧
    ¬((mkTask statR 0 imgR).isResize = false ∧ (mkTask statN 0 imgN).isResize = true) :=
  ⟨Nat.zero_lt_one,
   by rw [calc_two_tasks_eval]; rfl,
   by rw [calc_two_tasks_eval]; rfl,
   resize_tasks_precede [statR, statN] [("r", imgR), ("n", imgN)] 0 0 1 _ _
     Nat.zero_lt_one (by rw [calc_two_tasks_eval]; rfl) (by rw [calc_two_tasks_eval]; rfl)⟩

/-! ## Pyramid pre-filter: termination and the box average -/

theorem pyramidLoop_exit (tW tH sW sH : Nat) (buf : Nat → ℚ) :
    (pyramidLoop tW tH sW sH buf).1 ≤ tW * 2 ∨ (pyramidLoop tW tH sW sH buf).2.1 ≤ tH * 2 := by
  induction sW, sH, buf using pyramidLoop.induct tW tH with
  | case1 sW sH buf h ih =>
    rw [pyramidLoop, dif_pos h]
    exact ih
  | case2 sW sH buf h =>
    rw [pyramidLoop, dif_neg h]
    simp only [not_and_or, not_lt] at h
    rcases h with h | h
    · exact Or.inl h
    · exact Or.inr h

theorem boxHalve_avg (src : Nat → ℚ) (srcW nextW y x c : Nat) (hx : x < nextW) (hc : c < 4) :
    boxHalve src srcW nextW ((y * nextW + x) * 4 + c) =
      (src ((y * 2) * srcW * 4 + x * 2 * 4 + c) +
       src ((y * 2) * srcW * 4 + (x * 2 + 1) * 4 + c) +
       src ((y * 2 + 1) * srcW * 4 + x * 2 * 4 + c) +
       src ((y * 2 + 1) * srcW * 4 + (x * 2 + 1) * 4 + c)) * (1 / 4) := by
  have hsplit : (y * nextW + x) * 4 + c = (nextW * 4) * y + (x * 4 + c) := by ring
  have hlt : x * 4 + c < nextW * 4 := by omega
  have hy : ((y * nextW + x) * 4 + c) / (nextW * 4) = y := by
    rw [hsplit, Nat.mul_add_div (by omega), Nat.div_eq_of_lt hlt, Nat.add_zero]
  have hrem : ((y * nextW + x) * 4 + c) % (nextW * 4) = x * 4 + c := by
    rw [hsplit, Nat.mul_add_mod, Nat.mod_eq_of_lt hlt]
  have hx4 : (x * 4 + c) / 4 = x := by omega
  have hc4 : (x * 4 + c) % 4 = c := by omega
  simp only [boxHalve, hy, hrem, hx4, hc4]

/-- C4: for every source buffer and dimensions at least 1, the pyramid
loop — each iteration of which replaces the buffer by one of floor-halved
dimensions whose every pixel channel is the average of its non-overlapping
2×2 source block — terminates, and on exit the current width is at most
twice the target width or the current height is at most twice the target
height. -/
theorem pyramid_terminates (buf : Nat → ℚ) (sW sH tW tH : Nat)
    (hsW : 1 ≤ sW) (hsH : 1 ≤ sH) (htW : 1 ≤ tW) (htH : 1 ≤ tH) :
    ((pyramidLoop tW tH sW sH buf).1 ≤ 2 * tW ∨ (pyramidLoop tW tH sW sH buf).2.1 ≤ 2 * tH) ∧
    ∀ (src : Nat → ℚ) (srcW nextW y x c : Nat), x < nextW → c < 4 →
      boxHalve src srcW nextW ((y * nextW + x) * 4 + c) =
        (src ((y * 2) * srcW * 4 + x * 2 * 4 + c) +
         src ((y * 2) * srcW * 4 + (x * 2 + 1) * 4 + c) +
         src ((y * 2 + 1) * srcW * 4 + x * 2 * 4 + c) +
         src ((y * 2 + 1) * srcW * 4 + (x * 2 + 1) * 4 + c)) * (1 / 4) := by
  constructor
  · have h := pyramidLoop_exit tW tH sW sH buf
    omega
  · intro src srcW nextW y x c hx hc
    exact boxHalve_avg src srcW nextW y x c hx hc

/-- Witness for C4 at a concrete input. -/
theorem pyramid_terminates_witness :
    ((1 : Nat) ≤ 5 ∧ (1 : Nat) ≤ 1) ∧
    (((pyramidLoop 1 1 5 5 (fun _ => 0)).1 ≤ 2 * 1 ∨
      (pyramidLoop 1 1 5 5 (fun _ => 0)).2.1 ≤ 2 * 1) ∧
    ∀ (src : Nat → ℚ) (srcW nextW y x c : Nat), x < nextW → c < 4 →
      boxHalve src srcW nextW ((y * nextW + x) * 4 + c) =
        (src ((y * 2) * srcW * 4 + x * 2 * 4 + c) +
         src ((y * 2) * srcW * 4 + (x * 2 + 1) * 4 + c) +
         src ((y * 2 + 1) * srcW * 4 + x * 2 * 4 + c) +
         src ((y * 2 + 1) * srcW * 4 + (x * 2 + 1) * 4 + c)) * (1 / 4)) :=
  ⟨⟨by norm_num, le_refl 1⟩,
   pyramid_terminates (fun _ => 0) 5 5 1 1 (by norm_num) (by norm_num) (le_refl 1) (le_refl 1)⟩

/-! ## Lanczos weight renormalization -/

/-- C5: for every kernel and output coordinate, when the raw sum of the six
tap weights is nonzero the renormalized weights sum to exactly 1 in exact
arithmetic; when the raw sum is exactly zero, the renormalizing division is
skipped and the weights are left as computed. -/
theorem lanczos_weights_renormalize (kernel : ℚ → ℚ) (center : ℚ) :
    (rawWeightSum kernel center ≠ 0 → ∑ k : Fin 6, renormWeights kernel center k = 1) ∧
    (rawWeightSum kernel center = 0 →
      ∀ k, renormWeights kernel center k = computeRawWeights kernel center k) := by
  constructor
  · intro h
    unfold renormWeights
    simp only [if_pos h]
    rw [← Finset.sum_div]
    have hsum : ∑ k : Fin 6, computeRawWeights kernel center k = rawWeightSum kernel center := rfl
    rw [hsum, div_self h]
  · intro h k
    unfold renormWeights
    rw [if_neg (not_not_intro h)]

/-- Witness for C5: a constant kernel of 1 has raw sum 6 and renormalized
sum 1; a constant kernel of 0 hits the degenerate skip. -/
theorem lanczos_weights_renormalize_witness :
    (rawWeightSum (fun _ => (1 : ℚ)) 0 ≠ 0 ∧
      ∑ k : Fin 6, renormWeights (fun _ => (1 : ℚ)) 0 k = 1) ∧
    (rawWeightSum (fun _ => (0 : ℚ)) 0 = 0 ∧
      ∀ k, renormWeights (fun _ => (0 : ℚ)) 0 k = computeRawWeights (fun _ => (0 : ℚ)) 0 k) := by
  have h1 : rawWeightSum (fun _ => (1 : ℚ)) 0 ≠ 0 := by
    norm_num [rawWeightSum, computeRawWeights]
  have h0 : rawWeightSum (fun _ => (0 : ℚ)) 0 = 0 := by
    simp [rawWeightSum, computeRawWeights]
  exact ⟨⟨h1, (lanczos_weights_renormalize (fun _ => 1) 0).1 h1⟩,
         ⟨h0, (lanczos_weights_renormalize (fun _ => 0) 0).2 h0⟩⟩

/-! ## Quantization: monotone rounding and the alpha invariant -/

theorem roundHalfToEven_mono {x y : ℚ} (h : x ≤ y) :
    roundHalfToEven x ≤ roundHalfToEven y := by
  have hf : ⌊x⌋ ≤ ⌊y⌋ := Int.floor_mono h
  rcases lt_or_eq_of_le hf with hlt | heq
  · have hxu : roundHalfToEven x ≤ ⌊x⌋ + 1 := by
      unfold roundHalfToEven
      split_ifs <;> omega
    have hyl : ⌊y⌋ ≤ roundHalfToEven y := by
      unfold roundHalfToEven
      split_ifs <;> omega
    omega
  · unfold roundHalfToEven
    rw [heq]
    split_ifs <;> try omega
    all_goals
      exfalso
      rw [heq] at *
      linarith

theorem clampU8_mono {x y : ℚ} (h : x ≤ y) : clampU8 x ≤ clampU8 y := by
  unfold clampU8
  have := roundHalfToEven_mono h
  omega

/-- C3: each color channel is stored as `min(channel, alpha) + d` with the
same dither `d` as the alpha channel, the clamp to alpha happening before
dither and rounding; consequently each pre-dither clamped color value is at
most the pre-dither alpha value, and after the identical dither and the
clamped 8-bit rounding each quantized color channel is at most the
quantized alpha channel. -/
theorem quantize_color_le_alpha (r g b a u v : ℚ) :
    (quantizePixel r g b a u v =
      { red := clampU8 (min r a + ditherOf u v)
        green := clampU8 (min g a + ditherOf u v)
        blue := clampU8 (min b a + ditherOf u v)
        alpha := clampU8 (a + ditherOf u v) }) ∧
    (min r a ≤ a ∧ min g a ≤ a ∧ min b a ≤ a) ∧
    ((quantizePixel r g b a u v).red ≤ (quantizePixel r g b a u v).alpha ∧
     (quantizePixel r g b a u v).green ≤ (quantizePixel r g b a u v).alpha ∧
     (quantizePixel r g b a u v).blue ≤ (quantizePixel r g b a u v).alpha) :=
  ⟨rfl, ⟨min_le_right r a, min_le_right g a, min_le_right b a⟩,
   clampU8_mono (add_le_add_right (min_le_right r a) (ditherOf u v)),
   clampU8_mono (add_le_add_right (min_le_right g a) (ditherOf u v)),
   clampU8_mono (add_le_add_right (min_le_right b a) (ditherOf u v))⟩

/-- C9 counterexample: `Math.random()` ranges over `[0, 1)`, so both draws
can be exactly 0, making the dither exactly `-1`, which is not strictly
inside the open interval `(-1, 1)`. -/
theorem dither_can_equal_neg_one :
    (0 : ℚ) ≤ 0 ∧ (0 : ℚ) < 1 ∧ ditherOf 0 0 = -1 ∧ ¬(-1 < ditherOf 0 0) := by
  norm_num [ditherOf]

/-- C9 amended: with each draw in `[0, 1)`, the dither
`d = rand() + rand() - 1` lies in the half-open interval `[-1, 1)` — it is
at least `-1` (with equality exactly when both draws are 0) and strictly
below `1` — and that identical `d` is added to all four channels of the
pixel. -/
theorem dither_range_and_shared (u v r g b a : ℚ)
    (hu0 : 0 ≤ u) (hu1 : u < 1) (hv0 : 0 ≤ v) (hv1 : v < 1) :
    -1 ≤ ditherOf u v ∧ ditherOf u v < 1 ∧
    quantizePixel r g b a u v =
      { red := clampU8 (min r a + ditherOf u v)
        green := clampU8 (min g a + ditherOf u v)
        blue := clampU8 (min b a + ditherOf u v)
        alpha := clampU8 (a + ditherOf u v) } :=
  ⟨by unfold ditherOf; linarith, by unfold ditherOf; linarith, rfl⟩

/-- Witness for the amended C9 at a concrete input. -/
theorem dither_range_and_shared_witness :
    ((0 : ℚ) ≤ 0 ∧ (0 : ℚ) < 1 ∧ (0 : ℚ) ≤ 1 / 2 ∧ (1 : ℚ) / 2 < 1) ∧
    (-1 ≤ ditherOf 0 (1 / 2) ∧ ditherOf 0 (1 / 2) < 1 ∧
      quantizePixel 3 4 5 2 0 (1 / 2) =
        { red := clampU8 (min 3 2 + ditherOf 0 (1 / 2))
          green := clampU8 (min 4 2 + ditherOf 0 (1 / 2))
          blue := clampU8 (min 5 2 + ditherOf 0 (1 / 2))
          alpha := clampU8 ((2 : ℚ) + ditherOf 0 (1 / 2)) }) :=
  ⟨by norm_num,
   dither_range_and_shared 0 (1 / 2) 3 4 5 2 (by norm_num) (by norm_num) (by norm_num) (by norm_num)⟩

/-! ## Packaging: failure fallback and direct copy -/

theorem generateOptimizedZip_length {β : Type} (resize : OptimizationTask β → Option β)
    (tasks : List (OptimizationTask β)) :
    (generateOptimizedZip resize tasks).length = tasks.length := by
  induction tasks with
  | nil => rfl
  | cons t ts ih =>
    unfold generateOptimizedZip
    simp [ih]

theorem generateOptimizedZip_entry_of_failure {β : Type}
    (resize : OptimizationTask β → Option β) :
    ∀ (tasks : List (OptimizationTask β)) (i : Nat) (task : OptimizationTask β),
      tasks[i]? = some task → resize task = none →
      (generateOptimizedZip resize tasks)[i]? = some (zipEntryName task, task.blob) := by
  intro tasks
  induction tasks with
  | nil =>
    intro i task h
    simp at h
  | cons t ts ih =>
    intro i task h hr
    cases i with
    | zero =>
      simp only [List.getElem?_cons_zero, Option.some.injEq] at h
      subst h
      unfold generateOptimizedZip
      cases htr : t.isResize <;> simp [htr, hr]
    | succ n =>
      unfold generateOptimizedZip
      simp only [List.getElem?_cons_succ] at h ⊢
      exact ih n task h hr

theorem generateOptimizedZip_entry_nonresize {β : Type} :
    ∀ (tasks : List (OptimizationTask β)) (i : Nat) (task : OptimizationTask β),
      tasks[i]? = some task → task.isResize = false →
      ∀ resize : OptimizationTask β → Option β,
        (generateOptimizedZip resize tasks)[i]? = some (zipEntryName task, task.blob) := by
  intro tasks
  induction tasks with
  | nil =>
    intro i task h
    simp at h
  | cons t ts ih =>
    intro i task h hnr resize
    cases i with
    | zero =>
      simp only [List.getElem?_cons_zero, Option.some.injEq] at h
      subst h
      unfold generateOptimizedZip
      simp [hnr]
    | succ n =>
      unfold generateOptimizedZip
      simp only [List.getElem?_cons_succ] at h ⊢
      exact ih n task h hnr resize

theorem outputFileName_png (p : String) : ∃ base, outputFileName p = base ++ ".png" :=
  ⟨_, rfl⟩

/-- C6: `resizeImage` returns null rather than raising when the import
yields no raw buffer, a pipeline step throws, or encoding yields no blob;
and `generateOptimizedZip` then stores the task's original blob under the
same output file name, one entry per task with no failure aborting the
rest. -/
theorem resize_failure_fallback {ρ β : Type} (pipeline : ρ → Except Unit ρ)
    (encode : ρ → Option β) (resize : OptimizationTask β → Option β)
    (tasks : List (OptimizationTask β)) :
    (resizeImageRun (ρ := ρ) none pipeline encode = none) ∧
    (∀ raw, pipeline raw = Except.error () → resizeImageRun (some raw) pipeline encode = none) ∧
    (∀ raw processed, pipeline raw = Except.ok processed → encode processed = none →
      resizeImageRun (some raw) pipeline encode = none) ∧
    (generateOptimizedZip resize tasks).length = tasks.length ∧
    (∀ (i : Nat) (task : OptimizationTask β), tasks[i]? = some task → resize task = none →
      (generateOptimizedZip resize tasks)[i]? = some (zipEntryName task, task.blob)) := by
  refine ⟨rfl, ?_, ?_, generateOptimizedZip_length resize tasks,
    generateOptimizedZip_entry_of_failure resize tasks⟩
  · intro raw hp
    simp [resizeImageRun, hp]
  · intro raw processed hp he
    simp [resizeImageRun, hp, he]

/-- Witness for C6 at a concrete input: a one-task list whose resize fails. -/
theorem resize_failure_fallback_witness :
    (resizeImageRun (ρ := Unit) (β := Unit) none (fun _ => Except.error ()) (fun _ => none) =
      none) ∧
    (([mkTask statR 0 imgR] : List (OptimizationTask Unit))[0]? = some (mkTask statR 0 imgR)) ∧
    ((fun _ => none : OptimizationTask Unit → Option Unit) (mkTask statR 0 imgR) = none) ∧
    ((generateOptimizedZip (fun _ => none) [mkTask statR 0 imgR])[0]? =
      some (zipEntryName (mkTask statR 0 imgR), (mkTask statR 0 imgR).blob)) :=
  ⟨(resize_failure_fallback (ρ := Unit) (fun _ => Except.error ()) (fun _ => none)
      (fun _ => none) ([] : List (OptimizationTask Unit))).1,
   rfl, rfl,
   (resize_failure_fallback (ρ := Unit) (fun _ => Except.error ()) (fun _ => none)
      (fun _ => none) [mkTask statR 0 imgR]).2.2.2.2 0 (mkTask statR 0 imgR) rfl rfl⟩

/-- C10: a non-resize task's archive entry is exactly the original blob
under `images_optimized/` plus the task's file name, independently of the
resize outcome (the resample pipeline is never consulted for it); and
every task emitted by `calculateOptimizationTargets` carries the `.png`
extension. -/
theorem non_resize_direct_copy {β : Type} (tasks : List (OptimizationTask β)) (i : Nat)
    (task : OptimizationTask β) (h : tasks[i]? = some task) (hnr : task.isResize = false) :
    (∀ resize : OptimizationTask β → Option β,
      (generateOptimizedZip resize tasks)[i]? =
        some ("images_optimized/" ++ task.fileName, task.blob)) ∧
    ∀ (stats : List GlobalAssetStat) (imgs : List (String × LoadedImage β)) (bp : ℚ),
      ∀ t ∈ calculateOptimizationTargets stats imgs bp, ∃ base, t.fileName = base ++ ".png" := by
  constructor
  · intro resize
    exact generateOptimizedZip_entry_nonresize tasks i task h hnr resize
  · intro stats imgs bp t ht
    rw [mem_calculateOptimizationTargets] at ht
    obtain ⟨e, -, hf⟩ := ht
    obtain ⟨stat, -, rfl⟩ := taskFor_eq_some.mp hf
    exact outputFileName_png e.2.originalPath

/-- Witness for C10 at a concrete input: a one-task list with a non-resize
task. -/
theorem non_resize_direct_copy_witness :
    (([mkTask statN 0 imgN] : List (OptimizationTask Unit))[0]? = some (mkTask statN 0 imgN)) ∧
    ((mkTask statN 0 imgN).isResize = false) ∧
    ((∀ resize : OptimizationTask Unit → Option Unit,
      (generateOptimizedZip resize [mkTask statN 0 imgN])[0]? =
        some ("images_optimized/" ++ (mkTask statN 0 imgN).fileName, (mkTask statN 0 imgN).blob)) ∧
    ∀ (stats : List GlobalAssetStat) (imgs : List (String × LoadedImage Unit)) (bp : ℚ),
      ∀ t ∈ calculateOptimizationTargets stats imgs bp, ∃ base, t.fileName = base ++ ".png") :=
  ⟨rfl, mkTask_statN_isResize,
   non_resize_direct_copy [mkTask statN 0 imgN] 0 (mkTask statN 0 imgN) rfl mkTask_statN_isResize⟩

end SpineOpt
